import Mathlib

set_option maxHeartbeats 1000000

/-!
Shallow embedding of the tumor progression simulator (src/app.py).

The numerical quantities of the program (Python/NumPy floats) are embedded as
exact rationals; NumPy's elementwise division, which yields IEEE NaN or signed
infinity on a zero denominator instead of raising, is embedded as a total
function into an extended value type.  `scipy.integrate.solve_ivp` is a
third-party call; its interface (it always returns a result object carrying a
`success` flag, truncating the output on non-convergence rather than raising)
is modelled explicitly, and theorems about the scenario loop quantify over an
arbitrary solver with that interface wherever the solver's numerics do not
matter.
-/

/-- Intrinsic growth rates `r = np.array([0.03, 0.02, 0.015])`, src/app.py line 81. -/
def r : Fin 3 → ℚ := ![0.03, 0.02, 0.015]

/-- Carrying capacity `K = 1.0`, src/app.py line 82. -/
def K : ℚ := 1

/-- Base transition-rate matrix `base_transition`, src/app.py lines 74-78. -/
def base_transition : Fin 3 → Fin 3 → ℚ :=
  ![![0.0, 0.001, 0.0005],
    ![0.001, 0.0, 0.001],
    ![0.0002, 0.001, 0.0]]

/-- Initial state vector `x0 = [0.03, 0.015, 0.005]`, src/app.py line 72. -/
def x0 : Fin 3 → ℚ := ![0.03, 0.015, 0.005]

/-- The state-transition term of the derivative,
`transition = transition_matrix @ x - np.sum(transition_matrix, axis=1) * x`
(src/app.py line 86): matrix-vector product minus row sums times the state. -/
def transitionTerm (transition_matrix : Fin 3 → Fin 3 → ℚ) (x : Fin 3 → ℚ) : Fin 3 → ℚ :=
  fun i => (∑ j, transition_matrix i j * x j) - (∑ j, transition_matrix i j) * x i

/-- The derivative function `tumor_dynamics(t, x, epsilon, mu_profile, transition_matrix)`,
src/app.py lines 80-87.  The time argument is unused, as in the source. -/
def tumor_dynamics (t : ℚ) (x : Fin 3 → ℚ) (epsilon : ℚ) (mu_profile : Fin 3 → ℚ)
    (transition_matrix : Fin 3 → Fin 3 → ℚ) : Fin 3 → ℚ :=
  let total_tumor : ℚ := ∑ j, x j
  let treatment_effect : Fin 3 → ℚ := fun i => -epsilon * mu_profile i * x i
  let growth : Fin 3 → ℚ := fun i => r i * x i * (1 - total_tumor / K)
  fun i => growth i + treatment_effect i + transitionTerm transition_matrix x i

/-- Summing a function over the two indices other than `i` equals the full sum minus
the `i` entry. -/
lemma sum_erase_fin3 (i : Fin 3) (f : Fin 3 → ℚ) :
    ∑ j in Finset.univ.erase i, f j = (∑ j, f j) - f i := by
  rw [← Finset.sum_erase_add Finset.univ f (Finset.mem_univ i)]
  ring

/-- C1: for every time `t`, state `x`, and parameter bundle `(epsilon, mu, T)`, component
`i` of `tumor_dynamics` equals
`r i * x i * (1 - (x 0 + x 1 + x 2) / K) - epsilon * mu i * x i`
`+ (sum over j ≠ i of T i j * x j) - x i * (sum over j ≠ i of T i j)`,
with `r = (0.03, 0.02, 0.015)` and `K = 1`. -/
theorem tumor_dynamics_formula (t : ℚ) (x : Fin 3 → ℚ) (epsilon : ℚ)
    (mu_profile : Fin 3 → ℚ) (T : Fin 3 → Fin 3 → ℚ) (i : Fin 3) :
    tumor_dynamics t x epsilon mu_profile T i =
      r i * x i * (1 - (x 0 + x 1 + x 2) / K) - epsilon * mu_profile i * x i
        + ((∑ j in Finset.univ.erase i, T i j * x j)
            - x i * (∑ j in Finset.univ.erase i, T i j))
    ∧ r = ![0.03, 0.02, 0.015] ∧ K = 1 := by
  refine ⟨?_, rfl, rfl⟩
  simp only [tumor_dynamics, transitionTerm, sum_erase_fin3, Fin.sum_univ_three]
  ring

/-- A scenario parameter bundle: one value of the `scenarios` dictionary,
src/app.py lines 39-61. -/
structure Config where
  mu : Fin 3 → ℚ
  epsilon : ℚ
  transition : ℚ

/-- The fixed scenario table `scenarios`, src/app.py lines 39-61, as an ordered
association list (Python dicts preserve insertion order). -/
def scenarios : List (String × Config) :=
  [("Scenario 1: Sensitive + High therapy", ⟨![0.9, 0.5, 0.1], 0.8, 1.0⟩),
   ("Scenario 2: Partially resistant + Medium therapy", ⟨![0.7, 0.4, 0.2], 0.5, 1.0⟩),
   ("Scenario 3: High resistance + Low therapy", ⟨![0.4, 0.3, 0.1], 0.3, 1.0⟩),
   ("Scenario 4: Adaptive mix + High plasticity", ⟨![0.8, 0.5, 0.25], 0.6, 2.0⟩),
   ("Scenario 5: Experimental control", ⟨![0.6, 0.6, 0.6], 0.0, 0.0⟩),
   ("Scenario 6: Heterogeneous tumor + Sequential therapy", ⟨![0.85, 0.6, 0.3], 0.9, 0.8⟩),
   ("Scenario 7: Slow adaptive tumor + Reduced plasticity", ⟨![0.75, 0.45, 0.2], 0.4, 0.5⟩)]

/-- Dictionary lookup `scenarios[key]` (src/app.py line 91); `none` models the
`KeyError` raised when the key is absent. -/
def scenariosLookup (key : String) : Option Config :=
  scenarios.lookup key

/-- The scenario-specific matrix `transition_matrix = base_transition * config["transition"]`,
src/app.py line 92 (elementwise scaling of the base matrix). -/
def scaledTransition (c : ℚ) : Fin 3 → Fin 3 → ℚ :=
  fun i j => base_transition i j * c

/-- Total tumor volume at one time point: `np.sum` over the three components
(src/app.py lines 83, 104 and 117). -/
def total (x : Fin 3 → ℚ) : ℚ := ∑ j, x j

/-- Result of a NumPy elementwise float division: a finite quotient, or — when the
denominator is zero — IEEE NaN (for a zero numerator) or a signed infinity, produced
with a runtime warning but never an exception. -/
inductive FVal where
  | fin (q : ℚ)
  | nan
  | posInf
  | negInf
deriving DecidableEq

/-- NumPy float division of exact values: total, never raising; zero denominator
yields NaN or a signed infinity according to the numerator's sign. -/
def fdiv (a b : ℚ) : FVal :=
  if b = 0 then (if a = 0 then FVal.nan else if 0 < a then FVal.posInf else FVal.negInf)
  else FVal.fin (a / b)

/-- One component of `proportions = results[key].y / np.sum(results[key].y, axis=0)`
(src/app.py line 117) at a single time point's state vector. -/
def proportions (x : Fin 3 → ℚ) (i : Fin 3) : FVal :=
  fdiv (x i) (total x)

/-- The proportions arrays of a whole trajectory (src/app.py line 117): the pointwise
division applied at every sampled time point. -/
def proportionsTraj (ys : List (Fin 3 → ℚ)) : List (Fin 3 → FVal) :=
  ys.map (fun x i => proportions x i)

/-- C2: computing proportions is total — for every trajectory and every time point it
yields a defined value and never raises: at a state with zero total volume each entry
is the IEEE undefined marker (NaN, or a signed infinity for a nonzero component over a
zero total), and at nonzero total it is the finite quotient. -/
theorem proportions_defined (ys : List (Fin 3 → ℚ)) (x : Fin 3 → ℚ) (hx : x ∈ ys)
    (i : Fin 3) :
    (∃ v : FVal, (proportionsTraj ys).get? (ys.indexOf x) ≠ none ∧ proportions x i = v)
    ∧ (total x = 0 →
        proportions x i = FVal.nan ∨ proportions x i = FVal.posInf
          ∨ proportions x i = FVal.negInf)
    ∧ (total x ≠ 0 → proportions x i = FVal.fin (x i / total x)) := by
  refine ⟨⟨proportions x i, ?_, rfl⟩, ?_, ?_⟩
  · simp [proportionsTraj, List.get?_eq_none, List.indexOf_lt_length.mpr hx,
      Nat.not_le.mpr (List.indexOf_lt_length.mpr hx)]
  · intro h0
    by_cases hxi : x i = 0
    · exact Or.inl (by simp [proportions, fdiv, h0, hxi])
    · rcases lt_or_gt_of_ne hxi with hneg | hpos
      · exact Or.inr (Or.inr (by simp [proportions, fdiv, h0, hxi, not_lt.mpr hneg.le]))
      · exact Or.inr (Or.inl (by simp [proportions, fdiv, h0, hxi, hpos]))
  · intro h0
    simp [proportions, fdiv, h0]

/-- C2 witness: at the all-zero state (a member of the one-point trajectory holding it)
the proportion of the first component is a defined value, namely NaN. -/
theorem proportions_defined_witness :
    proportions (fun _ => (0 : ℚ)) 0 = FVal.nan
      ∨ proportions (fun _ => (0 : ℚ)) 0 = FVal.posInf
      ∨ proportions (fun _ => (0 : ℚ)) 0 = FVal.negInf :=
  (proportions_defined [fun _ => (0 : ℚ)] (fun _ => (0 : ℚ)) (by simp) 0).2.1
    (by simp [total])

/-- C4: whenever a scenario's `transition` scalar is `0`, the scaled transition matrix
is the zero matrix and the state-transition term of the derivative is exactly the zero
vector, for every state `x`. -/
theorem transition_zero_term_zero (config : Config) (h : config.transition = 0)
    (x : Fin 3 → ℚ) (i : Fin 3) :
    transitionTerm (scaledTransition config.transition) x i = 0 := by
  simp [transitionTerm, scaledTransition, h]

/-- C4 witness: Scenario 5's parameter bundle has `transition = 0` and the transition
term vanishes at the all-ones state. -/
theorem transition_zero_term_zero_witness :
    transitionTerm
      (scaledTransition (Config.mk ![0.6, 0.6, 0.6] 0 0).transition)
      (fun _ => (1 : ℚ)) 0 = 0 :=
  transition_zero_term_zero (Config.mk ![0.6, 0.6, 0.6] 0 0) rfl (fun _ => (1 : ℚ)) 0

/-- C5: at every state with strictly positive total volume, the three proportions are
finite and sum to exactly 1. -/
theorem proportions_sum_one (x : Fin 3 → ℚ) (h : 0 < total x) :
    ∃ p₀ p₁ p₂ : ℚ,
      proportions x 0 = FVal.fin p₀ ∧ proportions x 1 = FVal.fin p₁
        ∧ proportions x 2 = FVal.fin p₂ ∧ p₀ + p₁ + p₂ = 1 := by
  have hne : total x ≠ 0 := ne_of_gt h
  refine ⟨x 0 / total x, x 1 / total x, x 2 / total x, ?_, ?_, ?_, ?_⟩
  · simp [proportions, fdiv, hne]
  · simp [proportions, fdiv, hne]
  · simp [proportions, fdiv, hne]
  · rw [div_add_div_same, div_add_div_same, ← Fin.sum_univ_three x]
    exact div_self hne

/-- C5 witness: at the program's initial state (total volume `0.05 > 0`) the
proportions are finite and sum to 1. -/
theorem proportions_sum_one_witness :
    ∃ p₀ p₁ p₂ : ℚ,
      proportions x0 0 = FVal.fin p₀ ∧ proportions x0 1 = FVal.fin p₁
        ∧ proportions x0 2 = FVal.fin p₂ ∧ p₀ + p₁ + p₂ = 1 :=
  proportions_sum_one x0 (by norm_num [total, Fin.sum_univ_three, x0])

/-- C6: every scenario bundle in the table has `mu` components in `[0,1]`, `epsilon`
in `[0,1]` and `transition ≥ 0`; the base transition matrix is entrywise non-negative
with a zero diagonal; and the initial state vector is strictly positive. -/
theorem scenario_table_invariants :
    (∀ p ∈ scenarios,
        (∀ i, 0 ≤ p.2.mu i ∧ p.2.mu i ≤ 1)
          ∧ (0 ≤ p.2.epsilon ∧ p.2.epsilon ≤ 1) ∧ 0 ≤ p.2.transition)
    ∧ (∀ i j, 0 ≤ base_transition i j)
    ∧ (∀ i, base_transition i i = 0)
    ∧ (∀ i, 0 < x0 i) := by
  refine ⟨?_, ?_, ?_, ?_⟩
  · intro p hp
    simp only [scenarios, List.mem_cons, List.not_mem_nil, or_false] at hp
    rcases hp with rfl | rfl | rfl | rfl | rfl | rfl | rfl <;>
      exact ⟨fun i => by fin_cases i <;> constructor <;> norm_num,
        ⟨by norm_num, by norm_num⟩, by norm_num⟩
  · intro i j
    fin_cases i <;> fin_cases j <;> norm_num [base_transition]
  · intro i
    fin_cases i <;> norm_num [base_transition]
  · intro i
    fin_cases i <;> norm_num [x0]

/-- C10: the transition term does not conserve total mass: for the fixed base matrix
scaled by any `transition` scalar `c`, the componentwise sum of the transition term is
`0.0003 * c * (x 2 - x 0)` (row sums are subtracted as outflow instead of column
sums), and this is nonzero for some non-negative state. -/
theorem transition_mass_not_conserved :
    (∀ (c : ℚ) (x : Fin 3 → ℚ),
        ∑ i, transitionTerm (scaledTransition c) x i = 0.0003 * c * (x 2 - x 0))
    ∧ ∃ (c : ℚ) (x : Fin 3 → ℚ), (∀ i, 0 ≤ x i)
        ∧ ∑ i, transitionTerm (scaledTransition c) x i ≠ 0 := by
  have hmain : ∀ (c : ℚ) (x : Fin 3 → ℚ),
      ∑ i, transitionTerm (scaledTransition c) x i = 0.0003 * c * (x 2 - x 0) := by
    intro c x
    simp only [transitionTerm, scaledTransition, Fin.sum_univ_three, base_transition]
    norm_num
    ring
  refine ⟨hmain, 1, ![1, 0, 0], fun i => by fin_cases i <;> norm_num, ?_⟩
  rw [hmain]
  norm_num

/-- `np.linspace(a, b, n)` as used at src/app.py line 71: `n` evenly spaced samples
over `[a, b]`, endpoints included, with step `(b - a) / (n - 1)`. -/
def linspace (a b : ℚ) (n : ℕ) : List ℚ :=
  (List.range n).map (fun i : ℕ => a + (i : ℚ) * (b - a) / ((n : ℚ) - 1))

/-- `t_max = 300`, src/app.py line 69. -/
def t_max : ℚ := 300

/-- `t_eval = np.linspace(*t_span, 300)` with `t_span = (0, t_max)`,
src/app.py lines 70-71. -/
def t_eval : List ℚ := linspace 0 t_max 300

lemma linspace_length (a b : ℚ) (n : ℕ) : (linspace a b n).length = n := by
  simp only [linspace, List.length_map, List.length_range]

lemma linspace_get (a b : ℚ) (n i : ℕ) (h : i < (linspace a b n).length) :
    (linspace a b n).get ⟨i, h⟩ = a + i * (b - a) / ((n : ℚ) - 1) := by
  simp only [linspace, List.get_eq_getElem, List.getElem_map, List.getElem_range]

/-- The object returned by `scipy.integrate.solve_ivp` (src/app.py lines 95-98): the
sampled times `sol.t`, the per-time-point state vectors `sol.y`, and the convergence
flag `sol.success`.  On non-convergence solve_ivp still returns such an object (with
`success = False` and truncated arrays); it raises only on invalid arguments. -/
structure SolveResult where
  t : List ℚ
  y : List (Fin 3 → ℚ)
  success : Bool

/-- The step from the current evaluation time to the next one (`0` past the end). -/
def stepOf (t : ℚ) : List ℚ → ℚ
  | [] => 0
  | next :: _ => next - t

/-- States produced on the evaluation grid by stepping the derivative function once
per grid interval.  Stand-in for solve_ivp's internal adaptive RK45 float iterates,
which are not embeddable exactly; no claim depends on the numerical values of the
states, only on the shape of the returned data. -/
def eulerSteps (f : ℚ → (Fin 3 → ℚ) → Fin 3 → ℚ) :
    List ℚ → (Fin 3 → ℚ) → List (Fin 3 → ℚ)
  | [], _ => []
  | t :: ts, x => x :: eulerSteps f ts (fun i => x i + stepOf t ts * f t x i)

lemma eulerSteps_length (f : ℚ → (Fin 3 → ℚ) → Fin 3 → ℚ) (ts : List ℚ)
    (x : Fin 3 → ℚ) : (eulerSteps f ts x).length = ts.length := by
  induction ts generalizing x with
  | nil => rfl
  | cons t ts ih => simp [eulerSteps, ih]

/-- Model of the call `solve_ivp(fun, t_span, x0, t_eval=t_eval)` in the convergent
case: states sampled at exactly the requested evaluation times, `success = True`. -/
def solveIvp (f : ℚ → (Fin 3 → ℚ) → Fin 3 → ℚ) (x_init : Fin 3 → ℚ)
    (ts : List ℚ) : SolveResult :=
  ⟨ts, eulerSteps f ts x_init, true⟩

/-- The derivative closure
`lambda t, x: tumor_dynamics(t, x, epsilon, mu_profile, transition_matrix)` built
for one scenario, src/app.py lines 92-96. -/
def scenarioRHS (config : Config) : ℚ → (Fin 3 → ℚ) → Fin 3 → ℚ :=
  fun t x =>
    tumor_dynamics t x config.epsilon config.mu (scaledTransition config.transition)

/-- The scenario loop `results = {}; for key in selected_scenarios: ...`
(src/app.py lines 89-99), abstracted over the solver (any function with solve_ivp's
interface).  Returns the association list `results` built so far, together with
`some key` when the loop aborted with a `KeyError` on the lookup `scenarios[key]`
(line 91): in the source the entries computed before the exception exist in
`results`, but the script halts before anything is returned to the renderer. -/
def runWith
    (solver : (ℚ → (Fin 3 → ℚ) → Fin 3 → ℚ) → (Fin 3 → ℚ) → List ℚ → SolveResult) :
    List String → List (String × SolveResult) × Option String
  | [] => ([], none)
  | key :: rest =>
    match scenariosLookup key with
    | none => ([], some key)
    | some config =>
      let sol := solver (scenarioRHS config) x0 t_eval
      let out := runWith solver rest
      ((key, sol) :: out.1, out.2)

/-- What the caller of the scenario loop observes: the complete mapping when every
lookup succeeded, or the propagated `KeyError` — and then no mapping at all,
partial or otherwise. -/
def run
    (solver : (ℚ → (Fin 3 → ℚ) → Fin 3 → ℚ) → (Fin 3 → ℚ) → List ℚ → SolveResult)
    (selected : List String) : Except String (List (String × SolveResult)) :=
  match runWith solver selected with
  | (res, none) => Except.ok res
  | (_, some key) => Except.error key

/-- Every entry the loop records is the solver's output for that entry's scenario. -/
lemma runWith_entry_shape
    (solver : (ℚ → (Fin 3 → ℚ) → Fin 3 → ℚ) → (Fin 3 → ℚ) → List ℚ → SolveResult)
    (sel : List String) (p : String × SolveResult) (hp : p ∈ (runWith solver sel).1) :
    ∃ config, scenariosLookup p.1 = some config
      ∧ p.2 = solver (scenarioRHS config) x0 t_eval := by
  induction sel with
  | nil => simp [runWith] at hp
  | cons k rest ih =>
    cases hlk : scenariosLookup k with
    | none => simp [runWith, hlk] at hp
    | some config =>
      simp only [runWith, hlk, List.mem_cons] at hp
      rcases hp with rfl | hp
      · exact ⟨config, hlk, rfl⟩
      · exact ih hp

/-- When the loop's input is a run of valid names followed by an unknown name, the
loop aborts at the unknown name, having recorded exactly the prefix's results. -/
lemma runWith_valid_then_bad
    (solver : (ℚ → (Fin 3 → ℚ) → Fin 3 → ℚ) → (Fin 3 → ℚ) → List ℚ → SolveResult)
    (pre : List String) (bad : String) (rest : List String)
    (hpre : ∀ k ∈ pre, (scenariosLookup k).isSome)
    (hbad : scenariosLookup bad = none) :
    (runWith solver (pre ++ bad :: rest)).2 = some bad
    ∧ (runWith solver (pre ++ bad :: rest)).1.map Prod.fst = pre := by
  induction pre with
  | nil => simp [runWith, hbad]
  | cons k pre ih =>
    obtain ⟨config, hk⟩ := Option.isSome_iff_exists.mp (hpre k (by simp))
    have hih := ih (fun k' h' => hpre k' (by simp [h']))
    constructor
    · simpa [runWith, hk] using hih.1
    · simpa [runWith, hk] using hih.2

/-- A loop aborted by a `KeyError` makes the whole run fail with that error. -/
lemma run_eq_error
    (solver : (ℚ → (Fin 3 → ℚ) → Fin 3 → ℚ) → (Fin 3 → ℚ) → List ℚ → SolveResult)
    (sel : List String) (bad : String) (h : (runWith solver sel).2 = some bad) :
    run solver sel = Except.error bad := by
  unfold run
  rcases hrw : runWith solver sel with ⟨res, err⟩
  rw [hrw] at h
  cases err with
  | none => simp at h
  | some b =>
    have hb : b = bad := by simpa using h
    subst hb
    rfl

/-- A loop with no `KeyError` makes the run return the full mapping. -/
lemma run_eq_ok
    (solver : (ℚ → (Fin 3 → ℚ) → Fin 3 → ℚ) → (Fin 3 → ℚ) → List ℚ → SolveResult)
    (sel : List String) (h : (runWith solver sel).2 = none) :
    run solver sel = Except.ok (runWith solver sel).1 := by
  unfold run
  rcases hrw : runWith solver sel with ⟨res, err⟩
  rw [hrw] at h
  have herr : err = none := h
  subst herr
  rfl

/-- C3 counterexample: selecting the valid Scenario 1 followed by an unknown name,
the loop integrates Scenario 1 and only then aborts with the `KeyError`: an
integration is performed before the unknown-scenario failure, refuting the claim
that the run fails before any integration. -/
theorem run_unknown_integrates_first_cex :
    run solveIvp ["Scenario 1: Sensitive + High therapy", "Scenario X"]
        = Except.error "Scenario X"
    ∧ (runWith solveIvp ["Scenario 1: Sensitive + High therapy", "Scenario X"]).1.map
        Prod.fst = ["Scenario 1: Sensitive + High therapy"] :=
  ⟨rfl, rfl⟩

/-- C3 amended: for every selection made of valid names followed by an unknown name,
the run fails with the unknown-scenario `KeyError` at that name and the caller
receives no mapping (partial or otherwise); however, the valid names preceding the
unknown one are integrated before the failure (their results are recorded by the
loop when the exception is raised). -/
theorem run_unknown_fails_after_valid
    (solver : (ℚ → (Fin 3 → ℚ) → Fin 3 → ℚ) → (Fin 3 → ℚ) → List ℚ → SolveResult)
    (pre : List String) (bad : String) (rest : List String)
    (hpre : ∀ k ∈ pre, (scenariosLookup k).isSome)
    (hbad : scenariosLookup bad = none) :
    run solver (pre ++ bad :: rest) = Except.error bad
    ∧ (runWith solver (pre ++ bad :: rest)).1.map Prod.fst = pre :=
  ⟨run_eq_error solver _ bad (runWith_valid_then_bad solver pre bad rest hpre hbad).1,
    (runWith_valid_then_bad solver pre bad rest hpre hbad).2⟩

/-- C3 witness: Scenario 2 followed by an unknown name fails with that name's error,
after recording Scenario 2's integration. -/
theorem run_unknown_fails_after_valid_witness :
    run solveIvp
        (["Scenario 2: Partially resistant + Medium therapy"] ++ "Scenario Y" :: [])
        = Except.error "Scenario Y"
    ∧ (runWith solveIvp
        (["Scenario 2: Partially resistant + Medium therapy"] ++ "Scenario Y" :: [])).1.map
        Prod.fst = ["Scenario 2: Partially resistant + Medium therapy"] :=
  run_unknown_fails_after_valid solveIvp
    ["Scenario 2: Partially resistant + Medium therapy"] "Scenario Y" []
    (by decide) rfl

lemma t_eval_get (i : ℕ) (h : i < t_eval.length) :
    t_eval.get ⟨i, h⟩ = (i : ℚ) * 300 / 299 := by
  unfold t_eval
  rw [linspace_get]
  norm_num [t_max]

/-- C7: the evaluation grid has exactly 300 points, starts at 0, ends at 300, is
strictly increasing with uniform spacing `300 / 299`, and every trajectory the loop
produces carries this grid as its times and one state vector per time point. -/
theorem t_eval_grid_spec :
    t_eval.length = 300
    ∧ (∀ h : 0 < t_eval.length, t_eval.get ⟨0, h⟩ = 0)
    ∧ (∀ h : 299 < t_eval.length, t_eval.get ⟨299, h⟩ = 300)
    ∧ List.Pairwise (· < ·) t_eval
    ∧ (∀ (i : ℕ) (h : i + 1 < t_eval.length),
        t_eval.get ⟨i + 1, h⟩ - t_eval.get ⟨i, Nat.lt_of_succ_lt h⟩ = 300 / 299)
    ∧ (∀ (f : ℚ → (Fin 3 → ℚ) → Fin 3 → ℚ) (x_init : Fin 3 → ℚ),
        (solveIvp f x_init t_eval).t = t_eval
          ∧ (solveIvp f x_init t_eval).y.length = (solveIvp f x_init t_eval).t.length)
    ∧ (∀ (sel : List String) (i : ℕ) (h : i < (runWith solveIvp sel).1.length),
        (((runWith solveIvp sel).1.get ⟨i, h⟩).2.t = t_eval
          ∧ ((runWith solveIvp sel).1.get ⟨i, h⟩).2.y.length
              = ((runWith solveIvp sel).1.get ⟨i, h⟩).2.t.length)) := by
  refine ⟨?_, ?_, ?_, ?_, ?_, ?_, ?_⟩
  · exact linspace_length 0 t_max 300
  · intro h
    rw [t_eval_get 0 h]
    norm_num
  · intro h
    rw [t_eval_get 299 h]
    norm_num
  · unfold t_eval linspace
    refine List.Pairwise.map _ (fun a b hab => ?_) (List.pairwise_lt_range 300)
    have hq : (a : ℚ) < b := by exact_mod_cast hab
    have h299 : (0 : ℚ) < ((300 : ℕ) : ℚ) - 1 := by norm_num
    have h300 : (0 : ℚ) < t_max - 0 := by norm_num [t_max]
    exact add_lt_add_left ((div_lt_div_iff_of_pos_right h299).mpr
      (mul_lt_mul_of_pos_right hq h300)) 0
  · intro i h
    rw [t_eval_get (i + 1) h, t_eval_get i (Nat.lt_of_succ_lt h)]
    push_cast
    ring
  · intro f x_init
    exact ⟨rfl, by simp [solveIvp, eulerSteps_length]⟩
  · intro sel i h
    obtain ⟨config, _, hshape⟩ :=
      runWith_entry_shape solveIvp sel _ (List.get_mem (runWith solveIvp sel).1 _ h)
    rw [hshape]
    exact ⟨rfl, by simp [solveIvp, eulerSteps_length]⟩

/-- C7 witness: concrete instances — the grid's first point, its 300th point, the
first spacing, a solver call on the grid, and the single trajectory produced for
Scenario 5 all evaluated at index 0. -/
theorem t_eval_grid_spec_witness :
    t_eval.get ⟨0, by simp [t_eval, linspace_length]⟩ = 0
    ∧ t_eval.get ⟨299, by simp [t_eval, linspace_length]⟩ = 300
    ∧ ((runWith solveIvp ["Scenario 5: Experimental control"]).1.get
          ⟨0, by decide⟩).2.t = t_eval :=
  ⟨t_eval_grid_spec.2.1 (by simp [t_eval, linspace_length]),
    t_eval_grid_spec.2.2.1 (by simp [t_eval, linspace_length]),
    (t_eval_grid_spec.2.2.2.2.2.2 ["Scenario 5: Experimental control"] 0 (by decide)).1⟩

/-- C8: when every selected name is in the table, the loop finishes without abort and
the run returns one entry per selected scenario, in order, each entry being exactly
the solver's own result for that scenario — a result whose `success` flag records a
per-scenario integration failure without disturbing the sibling scenarios' entries. -/
theorem runner_per_scenario_results
    (solver : (ℚ → (Fin 3 → ℚ) → Fin 3 → ℚ) → (Fin 3 → ℚ) → List ℚ → SolveResult)
    (sel : List String) (hall : ∀ k ∈ sel, (scenariosLookup k).isSome) :
    (runWith solver sel).2 = none
    ∧ run solver sel = Except.ok (runWith solver sel).1
    ∧ (runWith solver sel).1.map Prod.fst = sel
    ∧ (∀ k ∈ sel, ∃ config, scenariosLookup k = some config
        ∧ (k, solver (scenarioRHS config) x0 t_eval) ∈ (runWith solver sel).1) := by
  have hcore : (runWith solver sel).2 = none
      ∧ (runWith solver sel).1.map Prod.fst = sel
      ∧ (∀ k ∈ sel, ∃ config, scenariosLookup k = some config
          ∧ (k, solver (scenarioRHS config) x0 t_eval) ∈ (runWith solver sel).1) := by
    induction sel with
    | nil => simp [runWith]
    | cons k rest ih =>
      obtain ⟨config, hk⟩ := Option.isSome_iff_exists.mp (hall k (by simp))
      have hih := ih (fun k' h' => hall k' (by simp [h']))
      refine ⟨by simpa [runWith, hk] using hih.1, by simpa [runWith, hk] using hih.2.1, ?_⟩
      intro k' hk'
      rcases List.mem_cons.mp hk' with rfl | hmem
      · exact ⟨config, hk, by simp [runWith, hk]⟩
      · obtain ⟨cfg, hcfg, hmem'⟩ := hih.2.2 k' hmem
        exact ⟨cfg, hcfg, by simp [runWith, hk]; right; exact hmem'⟩
  exact ⟨hcore.1, run_eq_ok solver sel hcore.1, hcore.2.1, hcore.2.2⟩

/-- C8 witness: with a solver that fails on every call (returning `success = false`),
selecting Scenario 5 and Scenario 1 still yields an entry for both scenarios and no
abort of the batch. -/
theorem runner_per_scenario_results_witness :
    (runWith (fun _ _ _ => ⟨[], [], false⟩)
        ["Scenario 5: Experimental control", "Scenario 1: Sensitive + High therapy"]).2
      = none
    ∧ (runWith (fun _ _ _ => ⟨[], [], false⟩)
        ["Scenario 5: Experimental control",
          "Scenario 1: Sensitive + High therapy"]).1.map Prod.fst
      = ["Scenario 5: Experimental control", "Scenario 1: Sensitive + High therapy"] :=
  ⟨(runner_per_scenario_results (fun _ _ _ => ⟨[], [], false⟩)
      ["Scenario 5: Experimental control", "Scenario 1: Sensitive + High therapy"]
      (by decide)).1,
    (runner_per_scenario_results (fun _ _ _ => ⟨[], [], false⟩)
      ["Scenario 5: Experimental control", "Scenario 1: Sensitive + High therapy"]
      (by decide)).2.2.1⟩

/-- C9: the run is deterministic — the derivative function is time-autonomous (no
hidden dependence on the integration clock), and two invocations of the run on equal
selections (the scenario table, initial state and time grid being the fixed constants
of the source) yield identical results. -/
theorem run_deterministic :
    (∀ (t₁ t₂ : ℚ) (x : Fin 3 → ℚ) (epsilon : ℚ) (mu_profile : Fin 3 → ℚ)
        (T : Fin 3 → Fin 3 → ℚ),
        tumor_dynamics t₁ x epsilon mu_profile T = tumor_dynamics t₂ x epsilon mu_profile T)
    ∧ (∀ (solver : (ℚ → (Fin 3 → ℚ) → Fin 3 → ℚ) → (Fin 3 → ℚ) → List ℚ → SolveResult)
        (sel₁ sel₂ : List String), sel₁ = sel₂ → run solver sel₁ = run solver sel₂) :=
  ⟨fun _ _ _ _ _ _ => rfl, fun _ _ _ h => by rw [h]⟩

/-- C9 witness: two invocations on the same selection coincide. -/
theorem run_deterministic_witness :
    run solveIvp ["Scenario 3: High resistance + Low therapy"]
      = run solveIvp ["Scenario 3: High resistance + Low therapy"] :=
  run_deterministic.2 solveIvp ["Scenario 3: High resistance + Low therapy"]
    ["Scenario 3: High resistance + Low therapy"] rfl

/-- C6 witness: the invariants instantiated at the first table entry (Scenario 1). -/
theorem scenario_table_invariants_witness :
    (∀ i, 0 ≤ (Config.mk ![0.9, 0.5, 0.1] 0.8 1.0).mu i
        ∧ (Config.mk ![0.9, 0.5, 0.1] 0.8 1.0).mu i ≤ 1)
    ∧ (0 ≤ (Config.mk ![0.9, 0.5, 0.1] 0.8 1.0).epsilon
        ∧ (Config.mk ![0.9, 0.5, 0.1] 0.8 1.0).epsilon ≤ 1)
    ∧ 0 ≤ (Config.mk ![0.9, 0.5, 0.1] 0.8 1.0).transition :=
  scenario_table_invariants.1
    ("Scenario 1: Sensitive + High therapy", Config.mk ![0.9, 0.5, 0.1] 0.8 1.0)
    (by simp [scenarios])
